import Mathlib

/-!
Shallow embedding of goproxy (proxy.go): the header sanitizer, the
request-dispatch pipeline, the HTTP forwarder, the tunnel forwarder and the
TCP relay, together with theorems checking the specification claims.
-/

/-! String helpers embedding the Go standard library functions used
by proxy.go. -/

/-- Embeds Go unicode.IsSpace restricted to the Latin-1 range, which covers
every whitespace character that can occur in an HTTP header value. -/
def goIsSpace (c : Char) : Bool :=
  c = ' ' || c = '\t' || c = '\n' || c = Char.ofNat 11 || c = Char.ofNat 12 ||
  c = '\r' || c = Char.ofNat 133 || c = Char.ofNat 160

/-- Embeds Go strings.TrimSpace. -/
def goTrimSpace (s : String) : String :=
  String.mk (((s.toList.dropWhile goIsSpace).reverse.dropWhile goIsSpace).reverse)

/-- Helper for goSplit: splits a character list at every separator. -/
def splitCharAux (sep : Char) : List Char → List Char → List (List Char)
  | [], acc => [acc.reverse]
  | c :: rest, acc =>
    if c = sep then acc.reverse :: splitCharAux sep rest []
    else splitCharAux sep rest (c :: acc)

/-- Embeds Go strings.Split for a single-character separator, as used with
a comma in removeConnectionHeaders. -/
def goSplit (s : String) (sep : Char) : List String :=
  (splitCharAux sep s.toList []).map String.mk

/-- Embeds Go textproto validHeaderFieldByte: HTTP token characters. -/
def isTokenChar (c : Char) : Bool :=
  c.isAlphanum || c = '!' || c = '#' || c = '$' || c = '%' || c = '&' ||
  c = Char.ofNat 39 || c = '*' || c = '+' || c = '-' || c = '.' || c = '^' ||
  c = '_' || c = Char.ofNat 96 || c = '|' || c = '~'

/-- Helper for canonicalKey: uppercase the first character and every character
following a dash, lowercase the rest. -/
def canonAux : Bool → List Char → List Char
  | _, [] => []
  | upper, c :: rest =>
    let c2 := if upper then c.toUpper else c.toLower
    c2 :: canonAux (c2 = '-') rest

/-- Embeds Go textproto.CanonicalMIMEHeaderKey: the canonical form when the
key is a valid HTTP token, the key unchanged otherwise. -/
def canonicalKey (s : String) : String :=
  if s.toList.all isTokenChar then String.mk (canonAux true s.toList) else s

/-! The header collection, embedding net/http Header (a map from canonical
header names to lists of values), modelled as an association list. -/

/-- Embeds net/http Header. -/
abbrev Header : Type := List (String × List String)

/-- Embeds http.Header.Get: canonicalize the key and return the first value
of the matching entry, or the empty string when absent or empty. -/
def Header.get (h : Header) (key : String) : String :=
  match h with
  | [] => ""
  | p :: t => if p.1 = canonicalKey key then p.2.headD "" else Header.get t key

/-- Embeds http.Header.Del: canonicalize the key and drop the matching
entries. -/
def Header.del (h : Header) (key : String) : Header :=
  match h with
  | [] => []
  | p :: t =>
    if p.1 = canonicalKey key then Header.del t key else p :: Header.del t key

/-! The header sanitizer from proxy.go. -/

/-- Embeds the hopHeaders table of proxy.go. -/
def hopHeaders : List String :=
  ["Connection",
   "Proxy-Connection",
   "Keep-Alive",
   "Proxy-Authenticate",
   "Proxy-Authorization",
   "Te",
   "Trailer",
   "Transfer-Encoding",
   "Upgrade"]

/-- Loop body of removeConnectionHeaders: trim the field name and delete it
unless it trimmed to the empty string. -/
def connDelStep (acc : Header) (f : String) : Header :=
  if goTrimSpace f = "" then acc else Header.del acc (goTrimSpace f)

/-- Embeds removeConnectionHeaders of proxy.go: when the Connection header
value is non-empty, delete every (trimmed, non-empty) name listed in its
comma-separated value. -/
def removeConnectionHeaders (h : Header) : Header :=
  if Header.get h "Connection" = "" then h
  else (goSplit (Header.get h "Connection") ',').foldl connDelStep h

/-- Loop body of removeHopHopHeaders: delete the header only when its
current value is non-empty. -/
def delIfNonEmpty (acc : Header) (item : String) : Header :=
  if Header.get acc item = "" then acc else Header.del acc item

/-- Embeds removeHopHopHeaders of proxy.go. -/
def removeHopHopHeaders (h : Header) : Header :=
  hopHeaders.foldl delIfNonEmpty h

/-- Embeds removeIssueHeader of proxy.go. -/
def removeIssueHeader (h : Header) : Header :=
  removeHopHopHeaders (removeConnectionHeaders h)

/-! Lemmas about the header operations. -/

/-- A header collection has no entry stored under key K. -/
def noKey (K : String) (h : Header) : Prop := ∀ p ∈ h, p.1 ≠ K

instance (K : String) (h : Header) : Decidable (noKey K h) :=
  inferInstanceAs (Decidable (∀ p ∈ h, p.1 ≠ K))

/-- Get depends on the key only through its canonical form. -/
theorem get_congr (h : Header) (k k2 : String) (e : canonicalKey k = canonicalKey k2) :
    Header.get h k = Header.get h k2 := by
  induction h with
  | nil => rfl
  | cons p t ih => simp [Header.get, e, ih]

/-- Deleting a key makes Get of any key with the same canonical form empty. -/
theorem get_del_eq (h : Header) (k k2 : String) (e : canonicalKey k = canonicalKey k2) :
    Header.get (Header.del h k2) k = "" := by
  induction h with
  | nil => rfl
  | cons p t ih =>
    by_cases hp : p.1 = canonicalKey k2
    · simpa [Header.del, hp] using ih
    · have hp2 : p.1 ≠ canonicalKey k := by rw [e]; exact hp
      simp [Header.del, hp, Header.get, hp2, ih]

/-- Deleting one key leaves Get of a canonically different key unchanged. -/
theorem get_del_ne (h : Header) (k k2 : String) (e : canonicalKey k ≠ canonicalKey k2) :
    Header.get (Header.del h k2) k = Header.get h k := by
  induction h with
  | nil => rfl
  | cons p t ih =>
    by_cases hp : p.1 = canonicalKey k2
    · have hp2 : p.1 ≠ canonicalKey k := by rw [hp]; intro hh; exact e hh.symm
      rw [Header.del, if_pos hp, ih, Header.get, if_neg hp2]
    · rw [Header.del, if_neg hp, Header.get, Header.get]
      by_cases hq : p.1 = canonicalKey k
      · rw [if_pos hq, if_pos hq]
      · rw [if_neg hq, if_neg hq, ih]

/-- Del only removes entries. -/
theorem mem_del (h : Header) (k : String) (p : String × List String)
    (hp : p ∈ Header.del h k) : p ∈ h := by
  induction h with
  | nil => simp [Header.del] at hp
  | cons q t ih =>
    by_cases hq : q.1 = canonicalKey k
    · rw [Header.del, if_pos hq] at hp
      exact List.mem_cons_of_mem q (ih hp)
    · rw [Header.del, if_neg hq] at hp
      rcases List.mem_cons.mp hp with rfl | hp2
      · exact List.mem_cons_self _ _
      · exact List.mem_cons_of_mem q (ih hp2)

/-- Every entry surviving Del has a key different from the deleted one. -/
theorem mem_del_fst (h : Header) (k : String) (p : String × List String)
    (hp : p ∈ Header.del h k) : p.1 ≠ canonicalKey k := by
  induction h with
  | nil => simp [Header.del] at hp
  | cons q t ih =>
    by_cases hq : q.1 = canonicalKey k
    · rw [Header.del, if_pos hq] at hp; exact ih hp
    · rw [Header.del, if_neg hq] at hp
      rcases List.mem_cons.mp hp with rfl | hp2
      · exact hq
      · exact ih hp2

theorem noKey_del (K : String) (h : Header) (k : String) (hn : noKey K h) :
    noKey K (Header.del h k) :=
  fun p hp => hn p (mem_del h k p hp)

theorem noKey_del_self (h : Header) (k : String) :
    noKey (canonicalKey k) (Header.del h k) :=
  fun p hp => mem_del_fst h k p hp

/-- When no entry is stored under the canonical key, Get is empty. -/
theorem get_of_noKey (h : Header) (k : String) (hn : noKey (canonicalKey k) h) :
    Header.get h k = "" := by
  induction h with
  | nil => rfl
  | cons p t ih =>
    have hp : p.1 ≠ canonicalKey k := hn p (List.mem_cons_self p t)
    rw [Header.get, if_neg hp]
    exact ih (fun q hq => hn q (List.mem_cons_of_mem p hq))

/-- Del of a canonically different key leaves the entries at a key intact. -/
theorem filter_del (h : Header) (K k2 : String) (hne : K ≠ canonicalKey k2) :
    (Header.del h k2).filter (fun p => p.1 == K) = h.filter (fun p => p.1 == K) := by
  induction h with
  | nil => rfl
  | cons p t ih =>
    by_cases hp : p.1 = canonicalKey k2
    · have hpk : (p.1 == K) = false := by
        simp only [beq_eq_false_iff_ne, ne_eq]
        rw [hp]; intro hh; exact hne hh.symm
      rw [Header.del, if_pos hp, List.filter_cons, hpk]
      simpa using ih
    · rw [Header.del, if_neg hp, List.filter_cons, List.filter_cons, ih]

/-! Lemmas about the loop of removeHopHopHeaders. -/

theorem get_delIfNonEmpty_self (h : Header) (k : String) :
    Header.get (delIfNonEmpty h k) k = "" := by
  unfold delIfNonEmpty
  by_cases hg : Header.get h k = ""
  · rw [if_pos hg]; exact hg
  · rw [if_neg hg]; exact get_del_eq h k k rfl

theorem get_delIfNonEmpty_empty (h : Header) (k k2 : String)
    (hg : Header.get h k = "") : Header.get (delIfNonEmpty h k2) k = "" := by
  unfold delIfNonEmpty
  by_cases h2 : Header.get h k2 = ""
  · simpa [h2] using hg
  · rw [if_neg h2]
    by_cases he : canonicalKey k = canonicalKey k2
    · exact get_del_eq h k k2 he
    · rw [get_del_ne h k k2 he]; exact hg

theorem get_foldl_delIfNonEmpty_empty (names : List String) (h : Header) (k : String)
    (hg : Header.get h k = "") :
    Header.get (names.foldl delIfNonEmpty h) k = "" := by
  induction names generalizing h with
  | nil => exact hg
  | cons n rest ih => exact ih _ (get_delIfNonEmpty_empty h k n hg)

/-- After the hop-by-hop loop, Get of every processed name is empty. -/
theorem get_foldl_delIfNonEmpty_mem (names : List String) (h : Header) (k : String)
    (hk : k ∈ names) : Header.get (names.foldl delIfNonEmpty h) k = "" := by
  induction names generalizing h with
  | nil => cases hk
  | cons n rest ih =>
    rcases List.mem_cons.mp hk with rfl | hmem
    · exact get_foldl_delIfNonEmpty_empty rest _ k (get_delIfNonEmpty_self h k)
    · exact ih _ hmem

/-- The hop-by-hop loop is the identity when every processed name already
reads empty. -/
theorem foldl_delIfNonEmpty_id (names : List String) (h : Header)
    (hg : ∀ k ∈ names, Header.get h k = "") : names.foldl delIfNonEmpty h = h := by
  induction names with
  | nil => rfl
  | cons n rest ih =>
    have h1 : delIfNonEmpty h n = h := by
      unfold delIfNonEmpty
      rw [if_pos (hg n (List.mem_cons_self n rest))]
    rw [List.foldl_cons, h1]
    exact ih (fun k hk => hg k (List.mem_cons_of_mem n hk))

theorem noKey_delIfNonEmpty (K : String) (h : Header) (k : String) (hn : noKey K h) :
    noKey K (delIfNonEmpty h k) := by
  unfold delIfNonEmpty
  by_cases hg : Header.get h k = ""
  · rwa [if_pos hg]
  · rw [if_neg hg]; exact noKey_del K h k hn

theorem noKey_foldl_delIfNonEmpty (K : String) (names : List String) (h : Header)
    (hn : noKey K h) : noKey K (names.foldl delIfNonEmpty h) := by
  induction names generalizing h with
  | nil => exact hn
  | cons n rest ih => exact ih _ (noKey_delIfNonEmpty K h n hn)

/-- The hop-by-hop loop removes every entry of a processed canonical name
whose value reads non-empty. -/
theorem noKey_foldl_delIfNonEmpty_mem (names : List String) (h : Header) (k : String)
    (hk : k ∈ names) (hck : canonicalKey k = k) (hg : Header.get h k ≠ "") :
    noKey k (names.foldl delIfNonEmpty h) := by
  induction names generalizing h with
  | nil => cases hk
  | cons n rest ih =>
    by_cases he : canonicalKey n = canonicalKey k
    · have hgn : Header.get h n = Header.get h k := get_congr h n k he
      have hstep : delIfNonEmpty h n = Header.del h n := by
        unfold delIfNonEmpty
        rw [hgn, if_neg hg]
      have hnk : noKey k (Header.del h n) := by
        have h2 := noKey_del_self h n
        rwa [he, hck] at h2
      rw [List.foldl_cons, hstep]
      exact noKey_foldl_delIfNonEmpty k rest _ hnk
    · have hne : n ≠ k := fun hh => he (by rw [hh])
      have hmem : k ∈ rest := by
        rcases List.mem_cons.mp hk with rfl | hm
        · exact absurd rfl hne
        · exact hm
      have hg2 : Header.get (delIfNonEmpty h n) k ≠ "" := by
        unfold delIfNonEmpty
        by_cases h2 : Header.get h n = ""
        · rwa [if_pos h2]
        · rw [if_neg h2]
          have hkn : canonicalKey k ≠ canonicalKey n := fun hh => he hh.symm
          rwa [get_del_ne h k n hkn]
      rw [List.foldl_cons]
      exact ih _ hmem hg2

/-! Lemmas about the loop of removeConnectionHeaders. -/

theorem noKey_connDelStep_trim (h : Header) (f : String) (hf : goTrimSpace f ≠ "") :
    noKey (canonicalKey (goTrimSpace f)) (connDelStep h f) := by
  unfold connDelStep
  rw [if_neg hf]
  exact noKey_del_self h (goTrimSpace f)

theorem noKey_connDelStep (K : String) (h : Header) (f : String) (hn : noKey K h) :
    noKey K (connDelStep h f) := by
  unfold connDelStep
  by_cases hf : goTrimSpace f = ""
  · rwa [if_pos hf]
  · rw [if_neg hf]; exact noKey_del K h _ hn

theorem noKey_foldl_connDelStep (K : String) (fs : List String) (h : Header)
    (hn : noKey K h) : noKey K (fs.foldl connDelStep h) := by
  induction fs generalizing h with
  | nil => exact hn
  | cons g rest ih => exact ih _ (noKey_connDelStep K h g hn)

/-- The connection loop removes every entry of a processed name that does not
trim to the empty string. -/
theorem noKey_foldl_connDelStep_mem (fs : List String) (h : Header) (f : String)
    (hf : f ∈ fs) (hne : goTrimSpace f ≠ "") :
    noKey (canonicalKey (goTrimSpace f)) (fs.foldl connDelStep h) := by
  induction fs generalizing h with
  | nil => cases hf
  | cons g rest ih =>
    rcases List.mem_cons.mp hf with rfl | hmem
    · exact noKey_foldl_connDelStep _ rest _ (noKey_connDelStep_trim h f hne)
    · exact ih _ hmem

/-- Along the connection loop, Get of a key is either preserved or the key
has been fully removed. -/
theorem get_foldl_connDelStep (fs : List String) (h : Header) (k : String) :
    Header.get (fs.foldl connDelStep h) k = Header.get h k ∨
      noKey (canonicalKey k) (fs.foldl connDelStep h) := by
  induction fs generalizing h with
  | nil => exact Or.inl rfl
  | cons g rest ih =>
    by_cases hg : goTrimSpace g = ""
    · have hstep : connDelStep h g = h := by unfold connDelStep; rw [if_pos hg]
      rw [List.foldl_cons, hstep]
      exact ih h
    · by_cases he : canonicalKey k = canonicalKey (goTrimSpace g)
      · right
        have h1 : noKey (canonicalKey k) (connDelStep h g) := by
          have h2 := noKey_connDelStep_trim h g hg
          rwa [← he] at h2
        rw [List.foldl_cons]
        exact noKey_foldl_connDelStep _ rest _ h1
      · have h1 : Header.get (connDelStep h g) k = Header.get h k := by
          unfold connDelStep
          rw [if_neg hg]
          exact get_del_ne h k _ he
        rw [List.foldl_cons]
        rcases ih (connDelStep h g) with h2 | h2
        · exact Or.inl (by rw [h2, h1])
        · exact Or.inr h2

theorem get_foldl_connDelStep_ne (fs : List String) (h : Header) (k : String)
    (hl : ∀ f ∈ fs, canonicalKey (goTrimSpace f) ≠ canonicalKey k) :
    Header.get (fs.foldl connDelStep h) k = Header.get h k := by
  induction fs generalizing h with
  | nil => rfl
  | cons g rest ih =>
    have hstep : Header.get (connDelStep h g) k = Header.get h k := by
      unfold connDelStep
      by_cases hg : goTrimSpace g = ""
      · rw [if_pos hg]
      · rw [if_neg hg]
        exact get_del_ne h k _ (fun hh => hl g (List.mem_cons_self g rest) hh.symm)
    rw [List.foldl_cons, ih _ (fun f hf => hl f (List.mem_cons_of_mem g hf)), hstep]

theorem filter_foldl_connDelStep (fs : List String) (h : Header) (k : String)
    (hl : ∀ f ∈ fs, canonicalKey (goTrimSpace f) ≠ k) :
    (fs.foldl connDelStep h).filter (fun p => p.1 == k) =
      h.filter (fun p => p.1 == k) := by
  induction fs generalizing h with
  | nil => rfl
  | cons g rest ih =>
    have hstep : (connDelStep h g).filter (fun p => p.1 == k) =
        h.filter (fun p => p.1 == k) := by
      unfold connDelStep
      by_cases hg : goTrimSpace g = ""
      · rw [if_pos hg]
      · rw [if_neg hg]
        exact filter_del h k _ (fun hh => hl g (List.mem_cons_self g rest) hh.symm)
    rw [List.foldl_cons, ih _ (fun f hf => hl f (List.mem_cons_of_mem g hf)), hstep]

theorem filter_foldl_delIfNonEmpty (names : List String) (h : Header) (k : String)
    (hck : canonicalKey k = k) (hg : Header.get h k = "") :
    (names.foldl delIfNonEmpty h).filter (fun p => p.1 == k) =
      h.filter (fun p => p.1 == k) := by
  induction names generalizing h with
  | nil => rfl
  | cons n rest ih =>
    by_cases he : canonicalKey n = canonicalKey k
    · have hstep : delIfNonEmpty h n = h := by
        unfold delIfNonEmpty
        rw [get_congr h n k he, if_pos hg]
      rw [List.foldl_cons, hstep]
      exact ih h hg
    · have hstep : (delIfNonEmpty h n).filter (fun p => p.1 == k) =
          h.filter (fun p => p.1 == k) := by
        unfold delIfNonEmpty
        by_cases h2 : Header.get h n = ""
        · rw [if_pos h2]
        · rw [if_neg h2]
          exact filter_del h k n (fun hh => he (by rw [← hh, hck]))
      have hget : Header.get (delIfNonEmpty h n) k = "" :=
        get_delIfNonEmpty_empty h k n hg
      rw [List.foldl_cons, ih _ hget, hstep]

/-! The sanitizer claims. -/

theorem hopHeaders_canonical : ∀ k ∈ hopHeaders, canonicalKey k = k := by decide

/-- After sanitizing, a hop-by-hop name whose value read non-empty has no
entry left. -/
theorem removeIssueHeader_noKey_hop (h : Header) (k : String) (hk : k ∈ hopHeaders)
    (hg : Header.get h k ≠ "") : noKey k (removeIssueHeader h) := by
  have hck : canonicalKey k = k := hopHeaders_canonical k hk
  have hsplit : Header.get (removeConnectionHeaders h) k = Header.get h k ∨
      noKey (canonicalKey k) (removeConnectionHeaders h) := by
    unfold removeConnectionHeaders
    by_cases hc : Header.get h "Connection" = ""
    · rw [if_pos hc]; exact Or.inl rfl
    · rw [if_neg hc]; exact get_foldl_connDelStep _ h k
  rcases hsplit with h1 | h1
  · show noKey k (hopHeaders.foldl delIfNonEmpty (removeConnectionHeaders h))
    exact noKey_foldl_delIfNonEmpty_mem hopHeaders _ k hk hck (by rw [h1]; exact hg)
  · show noKey k (hopHeaders.foldl delIfNonEmpty (removeConnectionHeaders h))
    rw [hck] at h1
    exact noKey_foldl_delIfNonEmpty k hopHeaders _ h1

/-- After sanitizing, a non-blank name listed in a non-empty Connection value
has no entry left. -/
theorem removeIssueHeader_noKey_listed (h : Header) (f : String)
    (hc : Header.get h "Connection" ≠ "")
    (hf : f ∈ goSplit (Header.get h "Connection") ',')
    (hne : goTrimSpace f ≠ "") :
    noKey (canonicalKey (goTrimSpace f)) (removeIssueHeader h) := by
  have h1 : noKey (canonicalKey (goTrimSpace f)) (removeConnectionHeaders h) := by
    unfold removeConnectionHeaders
    rw [if_neg hc]
    exact noKey_foldl_connDelStep_mem _ h f hf hne
  show noKey _ (hopHeaders.foldl delIfNonEmpty (removeConnectionHeaders h))
  exact noKey_foldl_delIfNonEmpty _ hopHeaders _ h1

/-- The sanitizer is idempotent. -/
theorem removeIssueHeader_idem (h : Header) :
    removeIssueHeader (removeIssueHeader h) = removeIssueHeader h := by
  have hhop : ∀ k ∈ hopHeaders, Header.get (removeIssueHeader h) k = "" := by
    intro k hk
    show Header.get (hopHeaders.foldl delIfNonEmpty (removeConnectionHeaders h)) k = ""
    exact get_foldl_delIfNonEmpty_mem hopHeaders (removeConnectionHeaders h) k hk
  have hconn : Header.get (removeIssueHeader h) "Connection" = "" :=
    hhop "Connection" (by decide)
  have h2 : removeConnectionHeaders (removeIssueHeader h) = removeIssueHeader h := by
    unfold removeConnectionHeaders
    rw [if_pos hconn]
  have h3 : removeIssueHeader (removeIssueHeader h) =
      removeHopHopHeaders (removeIssueHeader h) := by
    show removeHopHopHeaders (removeConnectionHeaders (removeIssueHeader h)) = _
    rw [h2]
  rw [h3]
  exact foldl_delIfNonEmpty_id hopHeaders _ hhop

/-- C2 counterexample: a hop-by-hop header present with only an empty value
is not removed by the sanitizer, so the claim that every header named in the
fixed hop-by-hop set is removed fails at this input. -/
theorem removeIssueHeader_keeps_empty_valued_hop_header :
    "Upgrade" ∈ hopHeaders ∧
      removeIssueHeader [("Upgrade", [""])] = [("Upgrade", [""])] := by decide

/-- C2 (amended): the sanitizer removes every hop-set header whose current
value reads non-empty, removes every non-blank name listed in a non-empty
Connection value, and is idempotent. -/
theorem removeIssueHeader_removes_and_idempotent (h : Header) :
    (∀ k ∈ hopHeaders, Header.get h k ≠ "" → noKey k (removeIssueHeader h)) ∧
    (Header.get h "Connection" ≠ "" →
      ∀ f ∈ goSplit (Header.get h "Connection") ',', goTrimSpace f ≠ "" →
        noKey (canonicalKey (goTrimSpace f)) (removeIssueHeader h)) ∧
    removeIssueHeader (removeIssueHeader h) = removeIssueHeader h :=
  ⟨fun k hk hg => removeIssueHeader_noKey_hop h k hk hg,
   fun hc f hf hne => removeIssueHeader_noKey_listed h f hc hf hne,
   removeIssueHeader_idem h⟩

/-- Witness for the amended C2 theorem at a concrete header collection. -/
theorem removeIssueHeader_removes_and_idempotent_witness :
    noKey "Upgrade"
      (removeIssueHeader
        [("Connection", [" X-Custom "]), ("X-Custom", ["1"]), ("Upgrade", ["websocket"])]) ∧
    noKey (canonicalKey (goTrimSpace " X-Custom "))
      (removeIssueHeader
        [("Connection", [" X-Custom "]), ("X-Custom", ["1"]), ("Upgrade", ["websocket"])]) ∧
    removeIssueHeader (removeIssueHeader
        [("Connection", [" X-Custom "]), ("X-Custom", ["1"]), ("Upgrade", ["websocket"])]) =
      removeIssueHeader
        [("Connection", [" X-Custom "]), ("X-Custom", ["1"]), ("Upgrade", ["websocket"])] :=
  ⟨(removeIssueHeader_removes_and_idempotent _).1 "Upgrade" (by decide) (by decide),
   (removeIssueHeader_removes_and_idempotent _).2.1 (by decide) " X-Custom " (by decide)
     (by decide),
   (removeIssueHeader_removes_and_idempotent
     [("Connection", [" X-Custom "]), ("X-Custom", ["1"]), ("Upgrade", ["websocket"])]).2.2⟩

/-- C10 counterexample: a hop-by-hop header whose only value is the empty
string is nevertheless removed when its name is listed in a non-empty
Connection value, so the claim that such a header is always left unchanged
fails at this input. -/
theorem sanitizer_removes_listed_header_with_empty_value :
    "Upgrade" ∈ hopHeaders ∧
    Header.get [("Connection", ["Upgrade"]), ("Upgrade", [""])] "Upgrade" = "" ∧
    removeIssueHeader [("Connection", ["Upgrade"]), ("Upgrade", [""])] = [] := by decide

/-- C10 (amended): a hop-by-hop header whose value reads empty is left
unchanged by the sanitizer provided its name is not listed in the Connection
value, while a name listed in a non-empty Connection value is removed
regardless of its own value. -/
theorem sanitizer_keeps_empty_hop_header_unless_listed (h : Header) (k : String)
    (hk : k ∈ hopHeaders) :
    (Header.get h k = "" →
      (∀ f ∈ goSplit (Header.get h "Connection") ',', canonicalKey (goTrimSpace f) ≠ k) →
      (removeIssueHeader h).filter (fun p => p.1 == k) =
        h.filter (fun p => p.1 == k)) ∧
    (Header.get h "Connection" ≠ "" →
      ∀ f ∈ goSplit (Header.get h "Connection") ',', goTrimSpace f ≠ "" →
        canonicalKey (goTrimSpace f) = k → noKey k (removeIssueHeader h)) := by
  have hck : canonicalKey k = k := hopHeaders_canonical k hk
  constructor
  · intro hg hl
    have hconnget : Header.get (removeConnectionHeaders h) k = "" := by
      unfold removeConnectionHeaders
      by_cases hc : Header.get h "Connection" = ""
      · rw [if_pos hc]; exact hg
      · rw [if_neg hc]
        rw [get_foldl_connDelStep_ne _ h k (fun f hf => by rw [hck]; exact hl f hf)]
        exact hg
    have hconnfilter : (removeConnectionHeaders h).filter (fun p => p.1 == k) =
        h.filter (fun p => p.1 == k) := by
      unfold removeConnectionHeaders
      by_cases hc : Header.get h "Connection" = ""
      · rw [if_pos hc]
      · rw [if_neg hc]
        exact filter_foldl_connDelStep _ h k hl
    have hhopfilter : (removeIssueHeader h).filter (fun p => p.1 == k) =
        (removeConnectionHeaders h).filter (fun p => p.1 == k) := by
      show (hopHeaders.foldl delIfNonEmpty (removeConnectionHeaders h)).filter
          (fun p => p.1 == k) = _
      exact filter_foldl_delIfNonEmpty hopHeaders _ k hck hconnget
    rw [hhopfilter, hconnfilter]
  · intro hc f hf hne hkey
    have h2 := removeIssueHeader_noKey_listed h f hc hf hne
    rwa [hkey] at h2

/-- Witness for the amended C10 theorem at concrete header collections. -/
theorem sanitizer_keeps_empty_hop_header_unless_listed_witness :
    (removeIssueHeader [("Upgrade", [""]), ("Other", ["x"])]).filter
        (fun p => p.1 == "Upgrade") =
      ([("Upgrade", [""]), ("Other", ["x"])] : Header).filter
        (fun p => p.1 == "Upgrade") ∧
    noKey "Upgrade"
      (removeIssueHeader [("Connection", ["Upgrade"]), ("Upgrade", [""])]) :=
  ⟨(sanitizer_keeps_empty_hop_header_unless_listed [("Upgrade", [""]), ("Other", ["x"])]
      "Upgrade" (by decide)).1 (by decide) (by decide),
   (sanitizer_keeps_empty_hop_header_unless_listed
      [("Connection", ["Upgrade"]), ("Upgrade", [""])]
      "Upgrade" (by decide)).2 (by decide) "Upgrade" (by decide) (by decide) (by decide)⟩

/-! The request-dispatch and forwarding engine of proxy.go, embedded as a
trace semantics: each handler is the ordered list of observable events it
performs, given the abort decisions of the delegate hooks and the results of
the external capabilities. -/

/-- Embeds the tunnelEstablishedResponseLine byte literal of proxy.go. -/
def tunnelEstablishedResponseLine : String :=
  "HTTP/1.1 200 Connection established\r\n\r\n"

/-- Embeds makeTunnelRequestLine of proxy.go. -/
def makeTunnelRequestLine (addr : String) : String :=
  "CONNECT " ++ addr ++ " HTTP/1.1\r\n\r\n"

/-- Response returned by the round-trip capability (http.Transport.RoundTrip). -/
structure HttpResp where
  status : Nat
  header : Header
  bodyLen : Nat
  deriving DecidableEq

/-- Observable events of one request handled by the proxy. -/
inductive Ev where
  | counterInc
  | counterDec
  | hookConnect
  | hookAuth
  | hookBeforeRequest
  | hookBeforeResponse
  | hookBeforeTunnelForward
  | hookFinish
  | errorLog
  | roundTrip
  | copyHeaders (h : Header)
  | writeHeader (status : Nat)
  | writeBody (n : Nat)
  | respBodyClose
  | hijack
  | dial (addr : String)
  | setClientDeadline
  | setTargetDeadline
  | clientWrite (s : String)
  | targetWrite (s : String)
  | relay
  | closeClient
  | closeTarget
  deriving DecidableEq

/-- One request's environment: whether each delegate hook sets the abort flag
of the context when invoked (the flag is only ever set, never cleared), and
the results of the external capabilities consumed by proxy.go (round-trip,
hijack, parent-proxy resolution, dial, the write back to the client). -/
structure Env where
  isConnect : Bool
  connectAborts : Bool
  authAborts : Bool
  beforeRequestAborts : Bool
  beforeResponseAborts : Bool
  roundTrip : Except String HttpResp
  beforeTunnelAborts : Bool
  hijack : Except String Unit
  parentProxy : Except String (Option String)
  dial : String → Except String Unit
  clientWriteOk : Bool
  reqHost : String

/-- Target address selection of forwardTunnel: the parent proxy host when one
was resolved, the request host otherwise. -/
def tunnelTargetAddr (env : Env) (po : Option String) : String :=
  match po with
  | some parentHost => parentHost
  | none => env.reqHost

/-- Embeds Proxy.forwardHTTP as the ordered list of its observable events.
The sanitizing of the outbound request headers is a pure step on data the
claims do not observe and has no event. -/
def forwardHTTPEvents (env : Env) : List Ev :=
  Ev.hookBeforeRequest ::
    (if env.beforeRequestAborts then [] else
      Ev.roundTrip :: Ev.hookBeforeResponse ::
        (if env.beforeResponseAborts then [] else
          match env.roundTrip with
          | Except.error _ => [Ev.errorLog, Ev.writeHeader 502]
          | Except.ok r =>
            [Ev.copyHeaders (removeIssueHeader r.header), Ev.writeHeader r.status,
             Ev.writeBody r.bodyLen, Ev.respBodyClose]))

/-- Embeds Proxy.forwardTunnel as the ordered list of its observable events,
with the deferred stream closes emitted on each exit path in the reverse of
their registration order, as Go defer runs them. -/
def forwardTunnelEvents (env : Env) : List Ev :=
  Ev.hookBeforeTunnelForward ::
    (if env.beforeTunnelAborts then [] else
      Ev.hijack ::
        (match env.hijack with
         | Except.error _ => [Ev.errorLog, Ev.writeHeader 502]
         | Except.ok _ =>
           match env.parentProxy with
           | Except.error _ => [Ev.errorLog, Ev.writeHeader 502, Ev.closeClient]
           | Except.ok po =>
             Ev.dial (tunnelTargetAddr env po) ::
               (match env.dial (tunnelTargetAddr env po) with
                | Except.error _ => [Ev.errorLog, Ev.writeHeader 502, Ev.closeClient]
                | Except.ok _ =>
                  Ev.setClientDeadline :: Ev.setTargetDeadline ::
                    (match po with
                     | none =>
                       Ev.clientWrite tunnelEstablishedResponseLine ::
                         (if env.clientWriteOk then
                            [Ev.relay, Ev.closeTarget, Ev.closeClient]
                          else [Ev.errorLog, Ev.closeTarget, Ev.closeClient])
                     | some _ =>
                       [Ev.targetWrite (makeTunnelRequestLine env.reqHost),
                        Ev.relay, Ev.closeTarget, Ev.closeClient]))))

/-- The part of ServeHTTP between the two abort checks and the method branch:
the Auth hook and, unless an abort happened, the chosen forwarder. -/
def dispatchBranch (env : Env) : List Ev :=
  if env.connectAborts then [] else
    Ev.hookAuth ::
      (if env.authAborts then [] else
        if env.isConnect then forwardTunnelEvents env else forwardHTTPEvents env)

/-- Embeds Proxy.ServeHTTP as the ordered list of its observable events; the
two deferred actions run last, in the reverse of their registration order
(Finish first, then the counter decrement). -/
def serveHTTPEvents (env : Env) : List Ev :=
  [Ev.counterInc, Ev.hookConnect] ++ dispatchBranch env ++ [Ev.hookFinish, Ev.counterDec]

/-- Statuses written to the response sink. -/
def statusWrites (tr : List Ev) : List Nat :=
  tr.filterMap (fun e => match e with | Ev.writeHeader n => some n | _ => none)

/-- Body chunks written to the response sink. -/
def bodyWrites (tr : List Ev) : List Nat :=
  tr.filterMap (fun e => match e with | Ev.writeBody n => some n | _ => none)

/-- Header collections copied to the response sink. -/
def headerCopies (tr : List Ev) : List Header :=
  tr.filterMap (fun e => match e with | Ev.copyHeaders h => some h | _ => none)

/-- Byte strings written to the hijacked client stream. -/
def clientWrites (tr : List Ev) : List String :=
  tr.filterMap (fun e => match e with | Ev.clientWrite s => some s | _ => none)

/-- Byte strings written to the target-side stream. -/
def targetWrites (tr : List Ev) : List String :=
  tr.filterMap (fun e => match e with | Ev.targetWrite s => some s | _ => none)

/-- Prefix of a trace strictly before relaying begins. -/
def beforeRelay (tr : List Ev) : List Ev :=
  tr.takeWhile (fun e => match e with | Ev.relay => false | _ => true)

/-- Counter effect of one event on the live-connection gauge. -/
def counterDelta : Ev → Int
  | Ev.counterInc => 1
  | Ev.counterDec => -1
  | _ => 0

/-- Net effect of a trace on the live-connection counter, whose value is what
ClientConnNum reads back through an atomic load. -/
def runCounter : List Ev → Int
  | [] => 0
  | e :: t => counterDelta e + runCounter t

/-! Helper lemmas about the traces. -/

/-- The HTTP forwarder performs no Finish hook and no counter operation. -/
theorem forwardHTTPEvents_no_dispatch_events (env : Env) :
    Ev.hookFinish ∉ forwardHTTPEvents env ∧ Ev.counterInc ∉ forwardHTTPEvents env ∧
      Ev.counterDec ∉ forwardHTTPEvents env := by
  unfold forwardHTTPEvents
  cases hrt : env.roundTrip <;> by_cases h1 : env.beforeRequestAborts <;>
    by_cases h2 : env.beforeResponseAborts <;> simp [h1, h2, hrt]

/-- The tunnel forwarder performs no Finish hook and no counter operation. -/
theorem forwardTunnelEvents_no_dispatch_events (env : Env) :
    Ev.hookFinish ∉ forwardTunnelEvents env ∧ Ev.counterInc ∉ forwardTunnelEvents env ∧
      Ev.counterDec ∉ forwardTunnelEvents env := by
  unfold forwardTunnelEvents
  by_cases h1 : env.beforeTunnelAborts
  · simp [h1]
  · cases hh : env.hijack with
    | error e => simp [h1, hh]
    | ok u =>
      cases hp : env.parentProxy with
      | error e => simp [h1, hh, hp]
      | ok po =>
        cases hd : env.dial (tunnelTargetAddr env po) with
        | error e => simp [h1, hh, hp, hd]
        | ok u2 =>
          cases po with
          | none =>
            by_cases hw : env.clientWriteOk <;> simp [h1, hh, hp, hd, hw]
          | some parentHost => simp [h1, hh, hp, hd]

/-- The middle of the dispatch performs no Finish hook and no counter
operation. -/
theorem dispatchBranch_no_dispatch_events (env : Env) :
    Ev.hookFinish ∉ dispatchBranch env ∧ Ev.counterInc ∉ dispatchBranch env ∧
      Ev.counterDec ∉ dispatchBranch env := by
  unfold dispatchBranch
  by_cases h1 : env.connectAborts
  · simp [h1]
  · by_cases h2 : env.authAborts
    · simp [h1, h2]
    · by_cases h3 : env.isConnect <;>
        simp [h1, h2, h3, forwardTunnelEvents_no_dispatch_events env,
          forwardHTTPEvents_no_dispatch_events env]

/-- The net counter effect of a trace is the number of increments minus the
number of decrements. -/
theorem runCounter_eq (l : List Ev) :
    runCounter l = (l.count Ev.counterInc : Int) - (l.count Ev.counterDec : Int) := by
  induction l with
  | nil => rfl
  | cons e t ih =>
    rw [runCounter, ih, List.count_cons, List.count_cons]
    cases e <;> simp [counterDelta] <;> ring

/-! The dispatcher claims. -/

/-- C1 counterexample environment: only the BeforeResponse hook aborts. -/
def envRespAbort : Env :=
  { isConnect := false
    connectAborts := false
    authAborts := false
    beforeRequestAborts := false
    beforeResponseAborts := true
    roundTrip := Except.ok { status := 200, header := [], bodyLen := 0 }
    beforeTunnelAborts := false
    hijack := Except.ok ()
    parentProxy := Except.ok none
    dial := fun _ => Except.ok ()
    clientWriteOk := true
    reqHost := "example.com:443" }

/-- C1 counterexample: when the BeforeResponse stage sets the abort flag the
round-trip has already been performed, so the claim that a stage setting the
abort flag implies no round-trip occurs for the request fails here. -/
theorem beforeResponse_abort_after_roundTrip :
    envRespAbort.beforeResponseAborts = true ∧
      Ev.roundTrip ∈ serveHTTPEvents envRespAbort := by
  constructor
  · rfl
  · decide

/-- C1 (amended): once a pipeline stage sets the abort flag, no later stage
and no further forwarding step after that stage occurs (when BeforeResponse
sets it the round-trip has already happened, and only Finish follows), and
the Finish hook runs exactly once on every path. -/
theorem abort_short_circuits_later_stages (env : Env) :
    (serveHTTPEvents env).count Ev.hookFinish = 1 ∧
    (env.connectAborts = true →
      serveHTTPEvents env =
        [Ev.counterInc, Ev.hookConnect, Ev.hookFinish, Ev.counterDec]) ∧
    (env.connectAborts = false → env.authAborts = true →
      serveHTTPEvents env =
        [Ev.counterInc, Ev.hookConnect, Ev.hookAuth, Ev.hookFinish, Ev.counterDec]) ∧
    (env.connectAborts = false → env.authAborts = false → env.isConnect = false →
      env.beforeRequestAborts = true →
      serveHTTPEvents env =
        [Ev.counterInc, Ev.hookConnect, Ev.hookAuth, Ev.hookBeforeRequest,
         Ev.hookFinish, Ev.counterDec]) ∧
    (env.connectAborts = false → env.authAborts = false → env.isConnect = false →
      env.beforeRequestAborts = false → env.beforeResponseAborts = true →
      serveHTTPEvents env =
        [Ev.counterInc, Ev.hookConnect, Ev.hookAuth, Ev.hookBeforeRequest, Ev.roundTrip,
         Ev.hookBeforeResponse, Ev.hookFinish, Ev.counterDec]) ∧
    (env.connectAborts = false → env.authAborts = false → env.isConnect = true →
      env.beforeTunnelAborts = true →
      serveHTTPEvents env =
        [Ev.counterInc, Ev.hookConnect, Ev.hookAuth, Ev.hookBeforeTunnelForward,
         Ev.hookFinish, Ev.counterDec]) := by
  refine ⟨?_, ?_, ?_, ?_, ?_, ?_⟩
  · have hfin : Ev.hookFinish ∉ dispatchBranch env :=
      (dispatchBranch_no_dispatch_events env).1
    show ([Ev.counterInc, Ev.hookConnect] ++ dispatchBranch env ++
        [Ev.hookFinish, Ev.counterDec]).count Ev.hookFinish = 1
    rw [List.count_append, List.count_append, List.count_eq_zero.mpr hfin]
    decide
  · intro h1
    unfold serveHTTPEvents dispatchBranch
    simp [h1]
  · intro h1 h2
    unfold serveHTTPEvents dispatchBranch
    simp [h1, h2]
  · intro h1 h2 h3 h4
    unfold serveHTTPEvents dispatchBranch forwardHTTPEvents
    simp [h1, h2, h3, h4]
  · intro h1 h2 h3 h4 h5
    unfold serveHTTPEvents dispatchBranch forwardHTTPEvents
    simp [h1, h2, h3, h4, h5]
  · intro h1 h2 h3 h4
    unfold serveHTTPEvents dispatchBranch forwardTunnelEvents
    simp [h1, h2, h3, h4]

/-- C1 witness environment: the Connect hook aborts. -/
def envConnAbort : Env :=
  { isConnect := false
    connectAborts := true
    authAborts := false
    beforeRequestAborts := false
    beforeResponseAborts := false
    roundTrip := Except.ok { status := 200, header := [], bodyLen := 0 }
    beforeTunnelAborts := false
    hijack := Except.ok ()
    parentProxy := Except.ok none
    dial := fun _ => Except.ok ()
    clientWriteOk := true
    reqHost := "example.com:443" }

/-- Witness for the amended C1 theorem at a concrete aborting environment. -/
theorem abort_short_circuits_later_stages_witness :
    (serveHTTPEvents envConnAbort).count Ev.hookFinish = 1 ∧
      serveHTTPEvents envConnAbort =
        [Ev.counterInc, Ev.hookConnect, Ev.hookFinish, Ev.counterDec] :=
  ⟨(abort_short_circuits_later_stages envConnAbort).1,
   (abort_short_circuits_later_stages envConnAbort).2.1 rfl⟩

/-- C8: the live-connection counter is incremented exactly once, as the very
first action of the handler, and decremented exactly once, as the very last
action after the Finish hook, on every path; the trace's net effect on the
gauge read by ClientConnNum is zero. -/
theorem clientConnNum_inc_dec_exactly_once (env : Env) :
    (serveHTTPEvents env).head? = some Ev.counterInc ∧
    (serveHTTPEvents env).getLast? = some Ev.counterDec ∧
    (serveHTTPEvents env).count Ev.counterInc = 1 ∧
    (serveHTTPEvents env).count Ev.counterDec = 1 ∧
    runCounter (serveHTTPEvents env) = 0 := by
  have hinc : Ev.counterInc ∉ dispatchBranch env :=
    (dispatchBranch_no_dispatch_events env).2.1
  have hdec : Ev.counterDec ∉ dispatchBranch env :=
    (dispatchBranch_no_dispatch_events env).2.2
  have hci : (serveHTTPEvents env).count Ev.counterInc = 1 := by
    show ([Ev.counterInc, Ev.hookConnect] ++ dispatchBranch env ++
        [Ev.hookFinish, Ev.counterDec]).count Ev.counterInc = 1
    rw [List.count_append, List.count_append, List.count_eq_zero.mpr hinc]
    decide
  have hcd : (serveHTTPEvents env).count Ev.counterDec = 1 := by
    show ([Ev.counterInc, Ev.hookConnect] ++ dispatchBranch env ++
        [Ev.hookFinish, Ev.counterDec]).count Ev.counterDec = 1
    rw [List.count_append, List.count_append, List.count_eq_zero.mpr hdec]
    decide
  refine ⟨rfl, ?_, hci, hcd, ?_⟩
  · have hshape : serveHTTPEvents env =
        (Ev.counterInc :: Ev.hookConnect :: (dispatchBranch env ++ [Ev.hookFinish])) ++
          [Ev.counterDec] := by
      show [Ev.counterInc, Ev.hookConnect] ++ dispatchBranch env ++
          [Ev.hookFinish, Ev.counterDec] = _
      simp
    rw [hshape, List.getLast?_concat]
  · rw [runCounter_eq, hci, hcd]
    decide

/-! The HTTP forwarder claims. -/

/-- C6: with no abort and a failing round-trip, forwardHTTP logs the error,
writes exactly one 502 status to the response sink and writes no body. -/
theorem forwardHTTP_roundTrip_error_502_no_body (env : Env) (msg : String)
    (h1 : env.beforeRequestAborts = false) (h2 : env.beforeResponseAborts = false)
    (h3 : env.roundTrip = Except.error msg) :
    forwardHTTPEvents env =
      [Ev.hookBeforeRequest, Ev.roundTrip, Ev.hookBeforeResponse, Ev.errorLog,
       Ev.writeHeader 502] ∧
    statusWrites (forwardHTTPEvents env) = [502] ∧
    bodyWrites (forwardHTTPEvents env) = [] := by
  have he : forwardHTTPEvents env =
      [Ev.hookBeforeRequest, Ev.roundTrip, Ev.hookBeforeResponse, Ev.errorLog,
       Ev.writeHeader 502] := by
    unfold forwardHTTPEvents
    simp [h1, h2, h3]
  exact ⟨he, by rw [he]; rfl, by rw [he]; rfl⟩

/-- C6 witness environment: the round-trip capability fails. -/
def envRTErr : Env :=
  { isConnect := false
    connectAborts := false
    authAborts := false
    beforeRequestAborts := false
    beforeResponseAborts := false
    roundTrip := Except.error "connection refused"
    beforeTunnelAborts := false
    hijack := Except.ok ()
    parentProxy := Except.ok none
    dial := fun _ => Except.ok ()
    clientWriteOk := true
    reqHost := "example.com:443" }

/-- Witness for the C6 theorem at a concrete failing environment. -/
theorem forwardHTTP_roundTrip_error_502_no_body_witness :
    forwardHTTPEvents envRTErr =
      [Ev.hookBeforeRequest, Ev.roundTrip, Ev.hookBeforeResponse, Ev.errorLog,
       Ev.writeHeader 502] ∧
    statusWrites (forwardHTTPEvents envRTErr) = [502] ∧
    bodyWrites (forwardHTTPEvents envRTErr) = [] :=
  forwardHTTP_roundTrip_error_502_no_body envRTErr "connection refused" rfl rfl rfl

/-- C9 counterexample environment: the BeforeRequest hook aborts. -/
def envBRAbort : Env :=
  { isConnect := false
    connectAborts := false
    authAborts := false
    beforeRequestAborts := true
    beforeResponseAborts := false
    roundTrip := Except.ok { status := 200, header := [], bodyLen := 0 }
    beforeTunnelAborts := false
    hijack := Except.ok ()
    parentProxy := Except.ok none
    dial := fun _ => Except.ok ()
    clientWriteOk := true
    reqHost := "example.com:443" }

/-- C9 counterexample: when a hook sets the abort flag, forwardHTTP writes no
response at all to the sink, so the claim that exactly one response is
written per call fails at this input. -/
theorem forwardHTTP_abort_writes_nothing :
    (statusWrites (forwardHTTPEvents envBRAbort)).length = 0 ∧
      bodyWrites (forwardHTTPEvents envBRAbort) = [] := by decide

/-- C9 (amended): when no hook aborts, forwardHTTP writes exactly one
response to the sink per call, a 502 status on round-trip failure and the
upstream status, sanitized headers and body otherwise; when a hook aborts,
the forwarder writes nothing itself. -/
theorem forwardHTTP_single_response_unless_abort (env : Env) :
    (env.beforeRequestAborts = false → env.beforeResponseAborts = false →
      (statusWrites (forwardHTTPEvents env)).length = 1 ∧
      (∀ msg, env.roundTrip = Except.error msg →
        statusWrites (forwardHTTPEvents env) = [502] ∧
        headerCopies (forwardHTTPEvents env) = [] ∧
        bodyWrites (forwardHTTPEvents env) = []) ∧
      (∀ r, env.roundTrip = Except.ok r →
        statusWrites (forwardHTTPEvents env) = [r.status] ∧
        headerCopies (forwardHTTPEvents env) = [removeIssueHeader r.header] ∧
        bodyWrites (forwardHTTPEvents env) = [r.bodyLen])) ∧
    ((env.beforeRequestAborts = true ∨ env.beforeResponseAborts = true) →
      statusWrites (forwardHTTPEvents env) = [] ∧
      bodyWrites (forwardHTTPEvents env) = []) := by
  constructor
  · intro h1 h2
    refine ⟨?_, ?_, ?_⟩
    · cases hrt : env.roundTrip <;>
        · unfold forwardHTTPEvents
          simp [h1, h2, hrt, statusWrites]
    · intro msg hrt
      have he : forwardHTTPEvents env =
          [Ev.hookBeforeRequest, Ev.roundTrip, Ev.hookBeforeResponse, Ev.errorLog,
           Ev.writeHeader 502] := by
        unfold forwardHTTPEvents
        simp [h1, h2, hrt]
      rw [he]
      exact ⟨rfl, rfl, rfl⟩
    · intro r hrt
      have he : forwardHTTPEvents env =
          [Ev.hookBeforeRequest, Ev.roundTrip, Ev.hookBeforeResponse,
           Ev.copyHeaders (removeIssueHeader r.header), Ev.writeHeader r.status,
           Ev.writeBody r.bodyLen, Ev.respBodyClose] := by
        unfold forwardHTTPEvents
        simp [h1, h2, hrt]
      rw [he]
      exact ⟨rfl, rfl, rfl⟩
  · intro habort
    rcases habort with h1 | h2
    · have he : forwardHTTPEvents env = [Ev.hookBeforeRequest] := by
        unfold forwardHTTPEvents
        simp [h1]
      rw [he]
      exact ⟨rfl, rfl⟩
    · by_cases h1 : env.beforeRequestAborts
      · have he : forwardHTTPEvents env = [Ev.hookBeforeRequest] := by
          unfold forwardHTTPEvents
          simp [h1]
        rw [he]
        exact ⟨rfl, rfl⟩
      · have he : forwardHTTPEvents env =
            [Ev.hookBeforeRequest, Ev.roundTrip, Ev.hookBeforeResponse] := by
          unfold forwardHTTPEvents
          simp [h1, h2]
        rw [he]
        exact ⟨rfl, rfl⟩

/-- The upstream response used by the C9 witness environment. -/
def respOk : HttpResp :=
  { status := 200
    header := [("Connection", ["X-Custom"]), ("X-Custom", ["1"]), ("Other", ["ok"])]
    bodyLen := 5 }

/-- C9 witness environment: nothing aborts and the round-trip succeeds. -/
def envOk : Env :=
  { isConnect := false
    connectAborts := false
    authAborts := false
    beforeRequestAborts := false
    beforeResponseAborts := false
    roundTrip := Except.ok respOk
    beforeTunnelAborts := false
    hijack := Except.ok ()
    parentProxy := Except.ok none
    dial := fun _ => Except.ok ()
    clientWriteOk := true
    reqHost := "example.com:443" }

/-- Witness for the amended C9 theorem at concrete environments. -/
theorem forwardHTTP_single_response_unless_abort_witness :
    (statusWrites (forwardHTTPEvents envOk)).length = 1 ∧
    statusWrites (forwardHTTPEvents envOk) = [200] ∧
    headerCopies (forwardHTTPEvents envOk) = [removeIssueHeader respOk.header] ∧
    bodyWrites (forwardHTTPEvents envOk) = [5] ∧
    statusWrites (forwardHTTPEvents envBRAbort) = [] :=
  ⟨((forwardHTTP_single_response_unless_abort envOk).1 rfl rfl).1,
   ((forwardHTTP_single_response_unless_abort envOk).1 rfl rfl).2.2 respOk rfl |>.1,
   ((forwardHTTP_single_response_unless_abort envOk).1 rfl rfl).2.2 respOk rfl |>.2.1,
   ((forwardHTTP_single_response_unless_abort envOk).1 rfl rfl).2.2 respOk rfl |>.2.2,
   ((forwardHTTP_single_response_unless_abort envBRAbort).2 (Or.inl rfl)).1⟩

/-! The tunnel forwarder claims. -/

/-- C3: with no abort, a successful hijack, no parent proxy resolved and a
successful dial, the only write to the client stream before relaying begins
is exactly the tunnel-established line, and nothing is written to the target
stream. -/
theorem tunnel_no_parent_writes_established_line (env : Env)
    (h0 : env.beforeTunnelAborts = false) (h1 : env.hijack = Except.ok ())
    (h2 : env.parentProxy = Except.ok none)
    (h3 : env.dial env.reqHost = Except.ok ()) :
    clientWrites (beforeRelay (forwardTunnelEvents env)) =
      [tunnelEstablishedResponseLine] ∧
    clientWrites (forwardTunnelEvents env) = [tunnelEstablishedResponseLine] ∧
    targetWrites (forwardTunnelEvents env) = [] := by
  by_cases hw : env.clientWriteOk
  · have he : forwardTunnelEvents env =
        [Ev.hookBeforeTunnelForward, Ev.hijack, Ev.dial env.reqHost,
         Ev.setClientDeadline, Ev.setTargetDeadline,
         Ev.clientWrite tunnelEstablishedResponseLine, Ev.relay, Ev.closeTarget,
         Ev.closeClient] := by
      unfold forwardTunnelEvents
      simp [h0, h1, h2, tunnelTargetAddr, h3, hw]
    rw [he]
    exact ⟨rfl, rfl, rfl⟩
  · have he : forwardTunnelEvents env =
        [Ev.hookBeforeTunnelForward, Ev.hijack, Ev.dial env.reqHost,
         Ev.setClientDeadline, Ev.setTargetDeadline,
         Ev.clientWrite tunnelEstablishedResponseLine, Ev.errorLog, Ev.closeTarget,
         Ev.closeClient] := by
      unfold forwardTunnelEvents
      simp [h0, h1, h2, tunnelTargetAddr, h3, hw]
    rw [he]
    exact ⟨rfl, rfl, rfl⟩

/-- C3 witness environment: a CONNECT request with no parent proxy. -/
def envTunnelOk : Env :=
  { isConnect := true
    connectAborts := false
    authAborts := false
    beforeRequestAborts := false
    beforeResponseAborts := false
    roundTrip := Except.ok respOk
    beforeTunnelAborts := false
    hijack := Except.ok ()
    parentProxy := Except.ok none
    dial := fun _ => Except.ok ()
    clientWriteOk := true
    reqHost := "example.com:443" }

/-- Witness for the C3 theorem at a concrete environment. -/
theorem tunnel_no_parent_writes_established_line_witness :
    clientWrites (beforeRelay (forwardTunnelEvents envTunnelOk)) =
      [tunnelEstablishedResponseLine] ∧
    clientWrites (forwardTunnelEvents envTunnelOk) = [tunnelEstablishedResponseLine] ∧
    targetWrites (forwardTunnelEvents envTunnelOk) = [] :=
  tunnel_no_parent_writes_established_line envTunnelOk rfl rfl rfl rfl

/-- C4: with no abort, a successful hijack, a parent proxy resolved and a
successful dial to it, the only write to the parent-side stream is exactly
the CONNECT request line carrying the original target, and nothing is
written to the client stream by the proxy itself. -/
theorem tunnel_with_parent_writes_connect_line (env : Env) (parentHost : String)
    (h0 : env.beforeTunnelAborts = false) (h1 : env.hijack = Except.ok ())
    (h2 : env.parentProxy = Except.ok (some parentHost))
    (h3 : env.dial parentHost = Except.ok ()) :
    targetWrites (forwardTunnelEvents env) =
      ["CONNECT " ++ env.reqHost ++ " HTTP/1.1\r\n\r\n"] ∧
    clientWrites (forwardTunnelEvents env) = [] := by
  have he : forwardTunnelEvents env =
      [Ev.hookBeforeTunnelForward, Ev.hijack, Ev.dial parentHost, Ev.setClientDeadline,
       Ev.setTargetDeadline, Ev.targetWrite (makeTunnelRequestLine env.reqHost),
       Ev.relay, Ev.closeTarget, Ev.closeClient] := by
    unfold forwardTunnelEvents
    simp [h0, h1, h2, tunnelTargetAddr, h3]
  rw [he]
  exact ⟨rfl, rfl⟩

/-- C4 witness environment: a CONNECT request chained through a parent. -/
def envParent : Env :=
  { isConnect := true
    connectAborts := false
    authAborts := false
    beforeRequestAborts := false
    beforeResponseAborts := false
    roundTrip := Except.ok respOk
    beforeTunnelAborts := false
    hijack := Except.ok ()
    parentProxy := Except.ok (some "parent.example:3128")
    dial := fun _ => Except.ok ()
    clientWriteOk := true
    reqHost := "example.com:443" }

/-- Witness for the C4 theorem: the original target example.com:443 yields
exactly the request line of the claim, and no client write. -/
theorem tunnel_with_parent_writes_connect_line_witness :
    targetWrites (forwardTunnelEvents envParent) =
      ["CONNECT example.com:443 HTTP/1.1\r\n\r\n"] ∧
    clientWrites (forwardTunnelEvents envParent) = [] :=
  tunnel_with_parent_writes_connect_line envParent "parent.example:3128" rfl rfl rfl rfl

/-- C5: after a successful hijack, a parent-resolution failure or a dial
failure writes exactly one 502 status, logs the error, performs no relay and
no tunnel write, and closes the hijacked client stream. -/
theorem tunnel_terminal_error_single_502 (env : Env)
    (h0 : env.beforeTunnelAborts = false) (h1 : env.hijack = Except.ok ())
    (h2 : (∃ msg, env.parentProxy = Except.error msg) ∨
      (∃ po msg, env.parentProxy = Except.ok po ∧
        env.dial (tunnelTargetAddr env po) = Except.error msg)) :
    statusWrites (forwardTunnelEvents env) = [502] ∧
    Ev.errorLog ∈ forwardTunnelEvents env ∧
    Ev.relay ∉ forwardTunnelEvents env ∧
    Ev.closeClient ∈ forwardTunnelEvents env ∧
    clientWrites (forwardTunnelEvents env) = [] ∧
    targetWrites (forwardTunnelEvents env) = [] := by
  rcases h2 with ⟨msg, hp⟩ | ⟨po, msg, hp, hd⟩
  · have he : forwardTunnelEvents env =
        [Ev.hookBeforeTunnelForward, Ev.hijack, Ev.errorLog, Ev.writeHeader 502,
         Ev.closeClient] := by
      unfold forwardTunnelEvents
      simp [h0, h1, hp]
    rw [he]
    refine ⟨rfl, by simp, by simp, by simp, rfl, rfl⟩
  · have he : forwardTunnelEvents env =
        [Ev.hookBeforeTunnelForward, Ev.hijack, Ev.dial (tunnelTargetAddr env po),
         Ev.errorLog, Ev.writeHeader 502, Ev.closeClient] := by
      unfold forwardTunnelEvents
      simp [h0, h1, hp, hd]
    rw [he]
    refine ⟨rfl, by simp, by simp, by simp, rfl, rfl⟩

/-- C5 witness environment: parent-proxy resolution fails after the hijack. -/
def envParentErr : Env :=
  { isConnect := true
    connectAborts := false
    authAborts := false
    beforeRequestAborts := false
    beforeResponseAborts := false
    roundTrip := Except.ok respOk
    beforeTunnelAborts := false
    hijack := Except.ok ()
    parentProxy := Except.error "no parent"
    dial := fun _ => Except.ok ()
    clientWriteOk := true
    reqHost := "example.com:443" }

/-- Witness for the C5 theorem at a concrete failing environment. -/
theorem tunnel_terminal_error_single_502_witness :
    statusWrites (forwardTunnelEvents envParentErr) = [502] ∧
    Ev.errorLog ∈ forwardTunnelEvents envParentErr ∧
    Ev.relay ∉ forwardTunnelEvents envParentErr ∧
    Ev.closeClient ∈ forwardTunnelEvents envParentErr ∧
    clientWrites (forwardTunnelEvents envParentErr) = [] ∧
    targetWrites (forwardTunnelEvents envParentErr) = [] :=
  tunnel_terminal_error_single_502 envParentErr rfl rfl (Or.inl ⟨"no parent", rfl⟩)

/-! The TCP relay of forwardTCP, embedded as two sequential tasks whose
executions are their interleavings. In the source, src is the hijacked
client stream and dst the dialed target stream. -/

/-- Events of the two relay tasks of forwardTCP. -/
inductive TEv where
  | copyTargetToClient
  | copyClientToTarget
  | closeSrc
  | closeDst
  | ret
  deriving DecidableEq

/-- Embeds the goroutine spawned by forwardTCP: copy from the target stream
to the client stream until end-of-stream, then close both streams. -/
def forwardTCPSpawned : List TEv :=
  [TEv.copyTargetToClient, TEv.closeSrc, TEv.closeDst]

/-- Embeds the calling task of forwardTCP: copy from the client stream to
the target stream until end-of-stream, close both streams, then return to
the caller; the spawned task is never waited for. -/
def forwardTCPMain : List TEv :=
  [TEv.copyClientToTarget, TEv.closeDst, TEv.closeSrc, TEv.ret]

/-- zs is an interleaving of xs and ys, keeping the order inside each. -/
inductive Interleave : List TEv → List TEv → List TEv → Prop where
  | nil : Interleave [] [] []
  | left (x : TEv) (xs ys zs : List TEv) :
      Interleave xs ys zs → Interleave (x :: xs) ys (x :: zs)
  | right (y : TEv) (xs ys zs : List TEv) :
      Interleave xs ys zs → Interleave xs (y :: ys) (y :: zs)

/-- The executions of forwardTCP: every interleaving of the spawned task
with the calling task. -/
def IsExecTCP (zs : List TEv) : Prop :=
  Interleave forwardTCPSpawned forwardTCPMain zs

theorem interleave_sublist_left (xs ys zs : List TEv) (h : Interleave xs ys zs) :
    List.Sublist xs zs := by
  induction h with
  | nil => exact List.Sublist.refl []
  | left x xs ys zs h ih => exact List.Sublist.cons₂ x ih
  | right y xs ys zs h ih => exact List.Sublist.cons y ih

theorem interleave_sublist_right (xs ys zs : List TEv) (h : Interleave xs ys zs) :
    List.Sublist ys zs := by
  induction h with
  | nil => exact List.Sublist.refl []
  | left x xs ys zs h ih => exact List.Sublist.cons x ih
  | right y xs ys zs h ih => exact List.Sublist.cons₂ y ih

theorem interleave_length (xs ys zs : List TEv) (h : Interleave xs ys zs) :
    zs.length = xs.length + ys.length := by
  induction h with
  | nil => rfl
  | left x xs ys zs h ih => simp only [List.length_cons, ih]; omega
  | right y xs ys zs h ih => simp only [List.length_cons, ih]; omega

theorem interleave_count (a : TEv) (xs ys zs : List TEv) (h : Interleave xs ys zs) :
    zs.count a = xs.count a + ys.count a := by
  induction h with
  | nil => rfl
  | left x xs ys zs h ih => simp only [List.count_cons, ih]; split <;> omega
  | right y xs ys zs h ih => simp only [List.count_cons, ih]; split <;> omega

/-- C7 counterexample execution: the calling task runs to completion before
the spawned task starts. -/
def execTCP0 : List TEv := forwardTCPMain ++ forwardTCPSpawned

/-- C7 counterexample: an execution of forwardTCP in which the call has
already returned while the spawned target-to-client direction has not even
copied yet is valid, so the claim that the forwarding call returns only
after both directions have finished fails. -/
theorem forwardTCP_can_return_before_spawned_done :
    IsExecTCP execTCP0 ∧ execTCP0[3]? = some TEv.ret ∧
      execTCP0[4]? = some TEv.copyTargetToClient := by
  refine ⟨?_, rfl, rfl⟩
  show Interleave [TEv.copyTargetToClient, TEv.closeSrc, TEv.closeDst]
      [TEv.copyClientToTarget, TEv.closeDst, TEv.closeSrc, TEv.ret]
      [TEv.copyClientToTarget, TEv.closeDst, TEv.closeSrc, TEv.ret,
       TEv.copyTargetToClient, TEv.closeSrc, TEv.closeDst]
  exact Interleave.right _ _ _ _ (Interleave.right _ _ _ _ (Interleave.right _ _ _ _
    (Interleave.right _ _ _ _ (Interleave.left _ _ _ _ (Interleave.left _ _ _ _
      (Interleave.left _ _ _ _ Interleave.nil))))))

/-- C7 (amended): the two directions are copied by two concurrent tasks;
each task, when its copy finishes, closes both streams; the calling task
returns right after its own direction's copy and closes and does not join
the spawned task, so every execution contains both copies and both double
closes in task order, while the return need not come last. -/
theorem forwardTCP_closes_both_no_join :
    forwardTCPMain = [TEv.copyClientToTarget, TEv.closeDst, TEv.closeSrc, TEv.ret] ∧
    forwardTCPSpawned = [TEv.copyTargetToClient, TEv.closeSrc, TEv.closeDst] ∧
    (∀ zs, IsExecTCP zs →
      List.Sublist forwardTCPMain zs ∧ List.Sublist forwardTCPSpawned zs ∧
      zs.length = 7 ∧ zs.count TEv.closeSrc = 2 ∧ zs.count TEv.closeDst = 2 ∧
      TEv.copyClientToTarget ∈ zs ∧ TEv.copyTargetToClient ∈ zs ∧ TEv.ret ∈ zs) := by
  refine ⟨rfl, rfl, ?_⟩
  intro zs hz
  have hmain := interleave_sublist_right _ _ _ hz
  have hspawn := interleave_sublist_left _ _ _ hz
  refine ⟨hmain, hspawn, ?_, ?_, ?_, ?_, ?_, ?_⟩
  · rw [interleave_length _ _ _ hz]; rfl
  · rw [interleave_count TEv.closeSrc _ _ _ hz]; rfl
  · rw [interleave_count TEv.closeDst _ _ _ hz]; rfl
  · exact hmain.subset (by decide)
  · exact hspawn.subset (by decide)
  · exact hmain.subset (by decide)

/-- C7 witness execution: the spawned task runs to completion first. -/
def execTCP1 : List TEv := forwardTCPSpawned ++ forwardTCPMain

/-- Witness for the amended C7 theorem at a concrete execution. -/
theorem forwardTCP_closes_both_no_join_witness :
    List.Sublist forwardTCPMain execTCP1 ∧ execTCP1.length = 7 ∧
      execTCP1.count TEv.closeSrc = 2 ∧ TEv.ret ∈ execTCP1 := by
  have hx : IsExecTCP execTCP1 := by
    show Interleave [TEv.copyTargetToClient, TEv.closeSrc, TEv.closeDst]
        [TEv.copyClientToTarget, TEv.closeDst, TEv.closeSrc, TEv.ret]
        [TEv.copyTargetToClient, TEv.closeSrc, TEv.closeDst, TEv.copyClientToTarget,
         TEv.closeDst, TEv.closeSrc, TEv.ret]
    exact Interleave.left _ _ _ _ (Interleave.left _ _ _ _ (Interleave.left _ _ _ _
      (Interleave.right _ _ _ _ (Interleave.right _ _ _ _ (Interleave.right _ _ _ _
        (Interleave.right _ _ _ _ Interleave.nil))))))
  have h := (forwardTCP_closes_both_no_join).2.2 execTCP1 hx
  exact ⟨h.1, h.2.2.1, h.2.2.2.1, h.2.2.2.2.2.2.2⟩

